import Mathlib

/-!
Verification of the Flux interpreter (src/smthing.py).

The interpreter is shallowly embedded here.  Python strings are modelled as
`List Char` (named `Str`), Python dicts (insertion ordered) as association
lists, and the mutable global interpreter state as explicitly threaded values.
The recursive execution engine is fuel-indexed: every recursive call consumes
one unit of fuel, and exhaustion is reported as the distinguished error
`RunError.outOfFuel` (the Python original would simply keep running).

The original delegates expression evaluation to the host `eval` with the
builtins `len`, `print`, `str`, `int`, `float` (src/smthing.py line 53).
That host facility is modelled by a small tokenizer / recursive-descent
parser / evaluator (`tokenize`, `parseCmp`, `evalPy`) covering the fragment
of Python expressions that substituted Flux expressions can reach:
integer, string and (literal-element) list displays, `None` / `True` /
`False`, unary minus, `+ - * %`, the comparisons `== != < <= > >=`,
parentheses, subscription of lists and strings (with negative indices), and
one-argument calls of the five exposed builtins.  True division, float
literals, chained comparisons, string repetition and non-integral floats lie
outside the modelled fragment and are reported as evaluation errors; no
claim below depends on them.  Exceptions raised by the host evaluator are
modelled as `Except.error reason`; the reason strings stand in for the text
of the Python exception.
-/

/-- Python strings are modelled as lists of characters. -/
abbrev Str := List Char

/-- The whitespace characters removed by Python `str.strip()`. -/
def isSpaceChar (c : Char) : Bool :=
  c = ' ' ∨ c = '\t' ∨ c = '\n' ∨ c = '\r' ∨ c = '\x0b' ∨ c = '\x0c'

/-- Python `str.strip()`. -/
def stripChars (s : Str) : Str :=
  ((s.dropWhile isSpaceChar).reverse.dropWhile isSpaceChar).reverse

/-- Python `str.startswith`. -/
def leadsWith : Str → Str → Bool
  | [], _ => true
  | _ :: _, [] => false
  | p :: ps, c :: cs => p = c && leadsWith ps cs

/-- Python `str.split(sep)` for a one-character separator. -/
def splitChar (sep : Char) : Str → List Str
  | [] => [[]]
  | c :: rest =>
      match splitChar sep rest with
      | [] => [[c]]
      | h :: t => if c = sep then [] :: h :: t else (c :: h) :: t

/-- Python `str.split(sep, 1)` (the separator is known to occur). -/
def splitFirst (sep : Char) : Str → Str × Str
  | [] => ([], [])
  | c :: rest =>
      if c = sep then ([], rest)
      else
        let p := splitFirst sep rest
        (c :: p.1, p.2)

/-- Concatenation of a list of strings. -/
def strConcat : List Str → Str
  | [] => []
  | x :: xs => x ++ strConcat xs

/-- Join with a single blank, as Python `print` does with its default `sep`. -/
def joinSpace : List Str → Str
  | [] => []
  | [x] => x
  | x :: xs => x ++ ' ' :: joinSpace xs

/-- A word character in the sense of the `\w` / `\b` regex classes (ASCII). -/
def isWordChar (c : Char) : Bool :=
  c.isAlphanum || c = '_'

/-- Decimal digits of a natural number (fuel-indexed so that it reduces). -/
def natStrAux : Nat → Nat → Str
  | 0, _ => []
  | fuel+1, n =>
      if n < 10 then [Char.ofNat ('0'.toNat + n)]
      else natStrAux fuel (n / 10) ++ [Char.ofNat ('0'.toNat + n % 10)]

/-- Decimal rendering of a natural number. -/
def natStr (n : Nat) : Str := natStrAux (n + 1) n

/-- Decimal rendering of an integer, as Python `str`/`repr` print it. -/
def intStr : Int → Str
  | Int.ofNat n => natStr n
  | Int.negSucc m => '-' :: natStr (m + 1)

mutual
/-- A Flux runtime value: the Python values the interpreter can produce.
Floats only ever arise through the `float` builtin applied to integral data,
so they are modelled with an integer payload. -/
inductive Value
  | int (n : Int)
  | float (n : Int)
  | str (s : Str)
  | bool (b : Bool)
  | none
  | list (l : VList)
/-- Lists of values (a mutual inductive so that structural recursion and
induction over nested lists stay primitive). -/
inductive VList
  | nil
  | cons (v : Value) (l : VList)
end

/-- Embed a Lean list of values into `VList`. -/
def ofList : List Value → VList
  | [] => .nil
  | v :: t => .cons v (ofList t)

/-- Length of a `VList`. -/
def vlen : VList → Nat
  | .nil => 0
  | .cons _ t => vlen t + 1

/-- Zero-based element access. -/
def vget : VList → Nat → Option Value
  | .nil, _ => Option.none
  | .cons v _, 0 => some v
  | .cons _ t, n+1 => vget t n

/-- Concatenation of `VList`s (Python `list + list`). -/
def vappend : VList → VList → VList
  | .nil, l => l
  | .cons v t, l => .cons v (vappend t l)

/-- One character of a Python `repr` string literal, escaped. -/
def escChar (q c : Char) : Str :=
  if c = '\\' then ['\\', '\\']
  else if c = q then ['\\', q]
  else if c = '\n' then ['\\', 'n']
  else if c = '\t' then ['\\', 't']
  else if c = '\r' then ['\\', 'r']
  else [c]

/-- Escape every character of a string body with respect to quote `q`. -/
def escBody (q : Char) : Str → Str
  | [] => []
  | c :: rest => escChar q c ++ escBody q rest

/-- Python `repr` of a string: single quotes unless the string contains a
single quote and no double quote. -/
def pyReprStr (s : Str) : Str :=
  let q : Char := if '\'' ∈ s ∧ '"' ∉ s then '"' else '\''
  q :: escBody q s ++ [q]

mutual
/-- Python `repr` of a value, exactly as `eval_expr` splices it into
expression text (src/smthing.py line 49). -/
def reprV : Value → Str
  | .int n => intStr n
  | .float n => intStr n ++ ['.', '0']
  | .str s => pyReprStr s
  | .bool b => if b then "True".toList else "False".toList
  | .none => "None".toList
  | .list l => '[' :: reprVL l ++ [']']
/-- Python `repr` of the comma-separated body of a list display. -/
def reprVL : VList → Str
  | .nil => []
  | .cons v .nil => reprV v
  | .cons v (.cons w t) => reprV v ++ [',', ' '] ++ reprVL (.cons w t)
end

/-- Python `str` of a value, as used by `print`. -/
def strOfValue : Value → Str
  | .str s => s
  | v => reprV v

/-- Python truthiness of a value. -/
def truthy : Value → Bool
  | .int n => n ≠ 0
  | .float n => n ≠ 0
  | .str s => s ≠ []
  | .bool b => b
  | .none => false
  | .list .nil => false
  | .list (.cons _ _) => true

/-- A scope: Python's insertion-ordered dict from names to values. -/
abbrev Env := List (Str × Value)

/-- Python `dict[key] = value`: update in place, or append a new key. -/
def envSet : Env → Str → Value → Env
  | [], k, v => [(k, v)]
  | (k', v') :: rest, k, v =>
      if k' = k then (k, v) :: rest else (k', v') :: envSet rest k v

/-- Lookup of a key known to be present (default `Value.none`). -/
def envGetD : Env → Str → Value
  | [], _ => Value.none
  | (k', v') :: rest, k => if k' = k then v' else envGetD rest k

/-- Word-character test lifted to an optional character (absent = not a word
character), used to decide `\b` word boundaries. -/
def isWordO : Option Char → Bool
  | Option.none => false
  | some c => isWordChar c

/-- Does `var` match at the head of `s` as the whole-word pattern
`\b var \b`, given the character `prev` immediately before this position?
(`var` is required to be nonempty, as every scope key substituted by
`eval_expr` is.) -/
def isWordMatchAt (var : Str) (prev : Option Char) (s : Str) : Bool :=
  var ≠ [] && var.isPrefixOf s &&
    (isWordO prev != isWordO var.head?) &&
    (isWordO var.getLast? != isWordO (s.drop var.length).head?)

/-- Scan of `re.sub(rf"\b{var}\b", repl, ·)`: leftmost, non-overlapping,
continuing after each match.  Fuel-indexed (one unit per consumed character)
so that it reduces; `subWord` supplies enough fuel. -/
def subWordAux (var repl : Str) : Nat → Option Char → Str → Str
  | 0, _, s => s
  | fuel+1, prev, s =>
      match s with
      | [] => []
      | c :: rest =>
          if isWordMatchAt var prev (c :: rest) then
            repl ++ subWordAux var repl fuel var.getLast? ((c :: rest).drop var.length)
          else
            c :: subWordAux var repl fuel (some c) rest

/-- `re.sub(rf"\b{var}\b", repl, s)` for a scope key `var`
(src/smthing.py line 49). -/
def subWord (var repl s : Str) : Str :=
  subWordAux var repl (s.length + 1) Option.none s

/-- `re.sub(r"\$(\w+)", lambda m: f"len({m.group(1)})", s)`
(src/smthing.py line 41).  Fuel-indexed scan, one unit per step. -/
def substDollarAux : Nat → Str → Str
  | 0, s => s
  | fuel+1, s =>
      match s with
      | [] => []
      | '$' :: rest =>
          let w := rest.takeWhile isWordChar
          if w ≠ [] then
            "len(".toList ++ w ++ [')'] ++ substDollarAux fuel (rest.drop w.length)
          else '$' :: substDollarAux fuel rest
      | c :: rest => c :: substDollarAux fuel rest

/-- The `$name` → `len(name)` rewrite applied by `eval_expr` before variable
substitution. -/
def substDollar (s : Str) : Str := substDollarAux (s.length + 1) s

/-- Stable insertion of a name into a list sorted by length, descending:
the new name goes after all names of greater or equal length. -/
def insLen (x : Str) : List Str → List Str
  | [] => [x]
  | y :: ys => if x.length ≤ y.length then y :: insLen x ys else x :: y :: ys

/-- `sorted(keys, key=len, reverse=True)`: Python's stable sort by length,
longest first (src/smthing.py line 46). -/
def sortByLenDesc (l : List Str) : List Str :=
  l.foldl (fun acc x => insLen x acc) []

/-- The full text rewrite `eval_expr` performs before handing the expression
to the host evaluator: the `$` rewrite, then whole-word substitution of every
scope variable by the `repr` of its value, longest names first
(src/smthing.py lines 41-49). -/
def substFull (env : Env) (expr : Str) : Str :=
  (sortByLenDesc (env.map Prod.fst)).foldl
    (fun ex v => subWord v (reprV (envGetD env v)) ex) (substDollar expr)

/-- Tokens of the modelled Python expression fragment. -/
inductive Tok
  | int (n : Nat)
  | str (s : Str)
  | ident (s : Str)
  | lparen | rparen | lbrack | rbrack | comma
  | plus | minus | star | percent
  | eq | ne | lt | le | gt | ge
deriving DecidableEq

/-- Numeric value of a run of decimal digits. -/
def digitsToNat (ds : Str) : Nat :=
  ds.foldl (fun n d => n * 10 + (d.toNat - '0'.toNat)) 0

/-- Scan the body of a Python string literal opened with quote `q`,
returning the decoded body and the remaining input. -/
def scanStr (q : Char) : Nat → Str → Option (Str × Str)
  | 0, _ => Option.none
  | _, [] => Option.none
  | fuel+1, '\\' :: rest =>
      match rest with
      | [] => Option.none
      | e :: rest' =>
          let dec : Option Char :=
            if e = '\\' then some '\\'
            else if e = 'n' then some '\n'
            else if e = 't' then some '\t'
            else if e = 'r' then some '\r'
            else if e = '\'' then some '\''
            else if e = '"' then some '"'
            else Option.none
          match dec with
          | Option.none => Option.none
          | some c =>
              match scanStr q fuel rest' with
              | Option.none => Option.none
              | some (t, r) => some (c :: t, r)
  | fuel+1, c :: rest =>
      if c = q then some ([], rest)
      else
        match scanStr q fuel rest with
        | Option.none => Option.none
        | some (t, r) => some (c :: t, r)

/-- Tokenizer for the modelled expression fragment; `Option.none` models a
host `SyntaxError`. -/
def tokenizeAux : Nat → Str → Option (List Tok)
  | 0, _ => Option.none
  | _, [] => some []
  | fuel+1, c :: rest =>
      if isSpaceChar c then tokenizeAux fuel rest
      else if c.isDigit then
        let ds := (c :: rest).takeWhile Char.isDigit
        match tokenizeAux fuel ((c :: rest).drop ds.length) with
        | Option.none => Option.none
        | some ts => some (Tok.int (digitsToNat ds) :: ts)
      else if isWordChar c then
        let w := (c :: rest).takeWhile isWordChar
        match tokenizeAux fuel ((c :: rest).drop w.length) with
        | Option.none => Option.none
        | some ts => some (Tok.ident w :: ts)
      else if c = '\'' ∨ c = '"' then
        match scanStr c (rest.length + 1) rest with
        | Option.none => Option.none
        | some (body, rest') =>
            match tokenizeAux fuel rest' with
            | Option.none => Option.none
            | some ts => some (Tok.str body :: ts)
      else
        let two : Option (Tok × Str) :=
          match c, rest with
          | '=', '=' :: r => some (Tok.eq, r)
          | '!', '=' :: r => some (Tok.ne, r)
          | '<', '=' :: r => some (Tok.le, r)
          | '>', '=' :: r => some (Tok.ge, r)
          | '<', r => some (Tok.lt, r)
          | '>', r => some (Tok.gt, r)
          | '+', r => some (Tok.plus, r)
          | '-', r => some (Tok.minus, r)
          | '*', r => some (Tok.star, r)
          | '%', r => some (Tok.percent, r)
          | '(', r => some (Tok.lparen, r)
          | ')', r => some (Tok.rparen, r)
          | '[', r => some (Tok.lbrack, r)
          | ']', r => some (Tok.rbrack, r)
          | ',', r => some (Tok.comma, r)
          | _, _ => Option.none
        match two with
        | Option.none => Option.none
        | some (t, r) =>
            match tokenizeAux fuel r with
            | Option.none => Option.none
            | some ts => some (t :: ts)

/-- Tokenize a whole expression string. -/
def tokenize (s : Str) : Option (List Tok) := tokenizeAux (s.length + 1) s

/-- The five builtins the host evaluator exposes
(src/smthing.py line 53). -/
inductive Builtin
  | lenB | printB | strB | intB | floatB
deriving DecidableEq

/-- Map an identifier to the builtin it denotes, if any. -/
def builtinOf (s : Str) : Option Builtin :=
  if s = "len".toList then some .lenB
  else if s = "print".toList then some .printB
  else if s = "str".toList then some .strB
  else if s = "int".toList then some .intB
  else if s = "float".toList then some .floatB
  else Option.none

/-- Binary arithmetic operators of the fragment. -/
inductive BinOp
  | add | sub | mul | mod
deriving DecidableEq

/-- Comparison operators of the fragment. -/
inductive CmpOp
  | eq | ne | lt | le | gt | ge
deriving DecidableEq

/-- Abstract syntax of the modelled Python expression fragment.  List
displays are restricted to literal elements (exactly the image of `repr`),
so the type needs no nested expression lists. -/
inductive PyExpr
  | lit (v : Value)
  | name (s : Str)
  | neg (a : PyExpr)
  | binop (op : BinOp) (a b : PyExpr)
  | cmp (op : CmpOp) (a b : PyExpr)
  | index (a b : PyExpr)
  | call (f : Builtin) (arg : PyExpr)

mutual
/-- Comparison level of the expression grammar (a single comparison of two
arithmetic expressions, as substituted Flux conditions use). -/
def parseCmp : Nat → List Tok → Option (PyExpr × List Tok)
  | 0, _ => Option.none
  | fuel+1, ts =>
      match parseArith fuel ts with
      | Option.none => Option.none
      | some (a, rest) =>
          let cop : Option (CmpOp × List Tok) :=
            match rest with
            | Tok.eq :: r => some (.eq, r)
            | Tok.ne :: r => some (.ne, r)
            | Tok.lt :: r => some (.lt, r)
            | Tok.le :: r => some (.le, r)
            | Tok.gt :: r => some (.gt, r)
            | Tok.ge :: r => some (.ge, r)
            | _ => Option.none
          match cop with
          | Option.none => some (a, rest)
          | some (op, r) =>
              match parseArith fuel r with
              | Option.none => Option.none
              | some (b, r') => some (.cmp op a b, r')

/-- Additive level: left-associative `+` and `-`. -/
def parseArith : Nat → List Tok → Option (PyExpr × List Tok)
  | 0, _ => Option.none
  | fuel+1, ts =>
      match parseTerm fuel ts with
      | Option.none => Option.none
      | some (a, rest) => parseArithLoop fuel a rest

/-- Fold further `+`/`-` operands onto an already parsed left operand. -/
def parseArithLoop : Nat → PyExpr → List Tok → Option (PyExpr × List Tok)
  | 0, _, _ => Option.none
  | fuel+1, a, Tok.plus :: r =>
      match parseTerm fuel r with
      | Option.none => Option.none
      | some (b, r') => parseArithLoop fuel (.binop .add a b) r'
  | fuel+1, a, Tok.minus :: r =>
      match parseTerm fuel r with
      | Option.none => Option.none
      | some (b, r') => parseArithLoop fuel (.binop .sub a b) r'
  | _+1, a, ts => some (a, ts)

/-- Multiplicative level: left-associative `*` and `%`. -/
def parseTerm : Nat → List Tok → Option (PyExpr × List Tok)
  | 0, _ => Option.none
  | fuel+1, ts =>
      match parseFactor fuel ts with
      | Option.none => Option.none
      | some (a, rest) => parseTermLoop fuel a rest

/-- Fold further `*`/`%` operands onto an already parsed left operand. -/
def parseTermLoop : Nat → PyExpr → List Tok → Option (PyExpr × List Tok)
  | 0, _, _ => Option.none
  | fuel+1, a, Tok.star :: r =>
      match parseFactor fuel r with
      | Option.none => Option.none
      | some (b, r') => parseTermLoop fuel (.binop .mul a b) r'
  | fuel+1, a, Tok.percent :: r =>
      match parseFactor fuel r with
      | Option.none => Option.none
      | some (b, r') => parseTermLoop fuel (.binop .mod a b) r'
  | _+1, a, ts => some (a, ts)

/-- Unary level: prefix minus, then an atom with its subscript trailers. -/
def parseFactor : Nat → List Tok → Option (PyExpr × List Tok)
  | 0, _ => Option.none
  | fuel+1, Tok.minus :: r =>
      match parseFactor fuel r with
      | Option.none => Option.none
      | some (a, r') => some (.neg a, r')
  | fuel+1, ts =>
      match parseAtom fuel ts with
      | Option.none => Option.none
      | some (a, r) => parseTrail fuel a r

/-- Subscription trailers `[expr]`, applied repeatedly. -/
def parseTrail : Nat → PyExpr → List Tok → Option (PyExpr × List Tok)
  | 0, _, _ => Option.none
  | fuel+1, a, Tok.lbrack :: r =>
      match parseCmp fuel r with
      | some (ix, Tok.rbrack :: r') => parseTrail fuel (.index a ix) r'
      | _ => Option.none
  | _+1, a, ts => some (a, ts)

/-- Atoms: literals, keywords, names, builtin calls, parenthesized
expressions, and list displays (with literal elements). -/
def parseAtom : Nat → List Tok → Option (PyExpr × List Tok)
  | 0, _ => Option.none
  | _+1, Tok.int n :: r => some (.lit (.int n), r)
  | _+1, Tok.str s :: r => some (.lit (.str s), r)
  | fuel+1, Tok.ident s :: r =>
      if s = "None".toList then some (.lit .none, r)
      else if s = "True".toList then some (.lit (.bool true), r)
      else if s = "False".toList then some (.lit (.bool false), r)
      else
        match builtinOf s with
        | some b =>
            match r with
            | Tok.lparen :: r2 =>
                match parseCmp fuel r2 with
                | some (arg, Tok.rparen :: r3) => some (.call b arg, r3)
                | _ => Option.none
            | _ => Option.none
        | Option.none => some (.name s, r)
  | fuel+1, Tok.lparen :: r =>
      match parseCmp fuel r with
      | some (e, Tok.rparen :: r') => some (e, r')
      | _ => Option.none
  | fuel+1, Tok.lbrack :: r =>
      match parseLitElems fuel r with
      | Option.none => Option.none
      | some (vs, r') => some (.lit (.list (ofList vs)), r')
  | _+1, _ => Option.none

/-- A literal value inside a list display. -/
def parseLitVal : Nat → List Tok → Option (Value × List Tok)
  | 0, _ => Option.none
  | _+1, Tok.int n :: r => some (.int n, r)
  | _+1, Tok.minus :: Tok.int n :: r => some (.int (-(n : Int)), r)
  | _+1, Tok.str s :: r => some (.str s, r)
  | _+1, Tok.ident s :: r =>
      if s = "None".toList then some (.none, r)
      else if s = "True".toList then some (.bool true, r)
      else if s = "False".toList then some (.bool false, r)
      else Option.none
  | fuel+1, Tok.lbrack :: r =>
      match parseLitElems fuel r with
      | Option.none => Option.none
      | some (vs, r') => some (.list (ofList vs), r')
  | _+1, _ => Option.none

/-- Elements of a list display after the opening bracket, up to and
including the closing bracket. -/
def parseLitElems : Nat → List Tok → Option (List Value × List Tok)
  | 0, _ => Option.none
  | _+1, Tok.rbrack :: r => some ([], r)
  | fuel+1, ts =>
      match parseLitVal fuel ts with
      | Option.none => Option.none
      | some (v, r) =>
          match r with
          | Tok.comma :: r' =>
              match parseLitElems fuel r' with
              | Option.none => Option.none
              | some (vs, r'') => some (v :: vs, r'')
          | Tok.rbrack :: r' => some ([v], r')
          | _ => Option.none
end

/-- Parse a complete expression string of the fragment; `Option.none`
models a host `SyntaxError`. -/
def pyParse (s : Str) : Option PyExpr :=
  match tokenize s with
  | Option.none => Option.none
  | some ts =>
      match parseCmp (ts.length * 8 + 8) ts with
      | some (e, []) => some e
      | _ => Option.none

/-- Lines written to standard output. -/
abbrev Out := List Str

/-- Lines written to the diagnostic (standard error) stream. -/
abbrev ErrOut := List Str

/-- View a value as a Python number: its integer payload and whether it is a
float (`bool` counts as the ints 0/1, as in Python). -/
def asNum : Value → Option (Int × Bool)
  | .int n => some (n, false)
  | .bool b => some (if b then 1 else 0, false)
  | .float n => some (n, true)
  | _ => Option.none

mutual
/-- Python `==` on values (numeric kinds compare by value, as `True == 1`
does in Python; distinct non-numeric kinds are unequal, not an error). -/
def pyEq : Value → Value → Bool
  | .list a, .list b => pyEqL a b
  | .str a, .str b => a == b
  | .none, .none => true
  | a, b =>
      match asNum a, asNum b with
      | some (x, _), some (y, _) => x == y
      | _, _ => false
/-- Python `==` on lists of values, pointwise. -/
def pyEqL : VList → VList → Bool
  | .nil, .nil => true
  | .cons a as, .cons b bs => pyEq a b && pyEqL as bs
  | _, _ => false
end

/-- Lexicographic comparison of strings by character code. -/
def ordChars : Str → Str → Ordering
  | [], [] => .eq
  | [], _ :: _ => .lt
  | _ :: _, [] => .gt
  | a :: as, b :: bs =>
      match compare a.toNat b.toNat with
      | .eq => ordChars as bs
      | o => o

/-- Python ordering of two values where defined: numbers with numbers,
strings with strings; anything else is a `TypeError`. -/
def pyOrd (a b : Value) : Option Ordering :=
  match a, b with
  | .str x, .str y => some (ordChars x y)
  | _, _ =>
      match asNum a, asNum b with
      | some (x, _), some (y, _) => some (compare x y)
      | _, _ => Option.none

/-- Python binary arithmetic on values (the fragment: numeric `+ - * %`,
string and list concatenation; `%` follows Python's floor-sign rule). -/
def pyBin : BinOp → Value → Value → Except Str Value
  | .add, .str x, .str y => .ok (.str (x ++ y))
  | .add, .list x, .list y => .ok (.list (vappend x y))
  | op, a, b =>
      match asNum a, asNum b with
      | some (x, fx), some (y, fy) =>
          match op with
          | .add => .ok (if fx || fy then .float (x + y) else .int (x + y))
          | .sub => .ok (if fx || fy then .float (x - y) else .int (x - y))
          | .mul => .ok (if fx || fy then .float (x * y) else .int (x * y))
          | .mod =>
              if fx || fy then .error "unsupported operand type(s) for %".toList
              else if y = 0 then .error "integer modulo by zero".toList
              else .ok (.int (Int.fmod x y))
      | _, _ => .error "unsupported operand type(s)".toList

/-- Python comparison operators on values. -/
def pyCmpv (op : CmpOp) (a b : Value) : Except Str Value :=
  match op with
  | .eq => .ok (.bool (pyEq a b))
  | .ne => .ok (.bool (!pyEq a b))
  | _ =>
      match pyOrd a b with
      | Option.none => .error "unorderable types".toList
      | some o =>
          .ok (.bool (match op, o with
            | .lt, .lt => true
            | .le, .lt => true
            | .le, .eq => true
            | .gt, .gt => true
            | .ge, .gt => true
            | .ge, .eq => true
            | _, _ => false))

/-- Python unary minus. -/
def pyNeg (v : Value) : Except Str Value :=
  match asNum v with
  | some (n, fl) => .ok (if fl then .float (-n) else .int (-n))
  | Option.none => .error "bad operand type for unary -".toList

/-- The `len` builtin. -/
def pyLen : Value → Except Str Value
  | .str s => .ok (.int s.length)
  | .list l => .ok (.int (vlen l))
  | _ => .error "object has no len()".toList

/-- Integer literal parsing used by the `int`/`float` builtins on strings. -/
def intFromStr (s : Str) : Option Int :=
  match s with
  | '-' :: ds =>
      if ds ≠ [] ∧ ds.all Char.isDigit then some (-(digitsToNat ds : Int))
      else Option.none
  | ds =>
      if ds ≠ [] ∧ ds.all Char.isDigit then some ((digitsToNat ds : Int))
      else Option.none

/-- The `int` builtin. -/
def pyIntB : Value → Except Str Value
  | .int n => .ok (.int n)
  | .bool b => .ok (.int (if b then 1 else 0))
  | .float n => .ok (.int n)
  | .str s =>
      match intFromStr (stripChars s) with
      | some n => .ok (.int n)
      | Option.none => .error "invalid literal for int()".toList
  | _ => .error "int() argument must be a string or a number".toList

/-- The `float` builtin (integral payloads only in the fragment). -/
def pyFloatB : Value → Except Str Value
  | .int n => .ok (.float n)
  | .bool b => .ok (.float (if b then 1 else 0))
  | .float n => .ok (.float n)
  | .str s =>
      match intFromStr (stripChars s) with
      | some n => .ok (.float n)
      | Option.none => .error "could not convert string to float".toList
  | _ => .error "float() argument must be a string or a number".toList

/-- View a value as a Python subscript index (ints and bools). -/
def asIdx : Value → Option Int
  | .int n => some n
  | .bool b => some (if b then 1 else 0)
  | _ => Option.none

/-- Python subscription `a[i]` on lists and strings, with negative-index
wrapping. -/
def pyIndex : Value → Value → Except Str Value
  | .list l, i =>
      (match asIdx i with
      | some n =>
          let len : Int := vlen l
          let adj := if n < 0 then n + len else n
          if 0 ≤ adj ∧ adj < len then
            match vget l adj.toNat with
            | some v => .ok v
            | Option.none => .error "list index out of range".toList
          else .error "list index out of range".toList
      | Option.none => .error "list indices must be integers".toList)
  | .str s, i =>
      (match asIdx i with
      | some n =>
          let len : Int := s.length
          let adj := if n < 0 then n + len else n
          if 0 ≤ adj ∧ adj < len then
            match s.get? adj.toNat with
            | some c => .ok (.str [c])
            | Option.none => .error "string index out of range".toList
          else .error "string index out of range".toList
      | Option.none => .error "string indices must be integers".toList)
  | _, _ => .error "object is not subscriptable".toList

/-- Evaluate a parsed expression.  The second component is the standard
output the evaluation produces: the `print` builtin is exposed to
expressions (src/smthing.py line 53), and each of its calls emits one line.
Exceptions are modelled as `Except.error` with the reason text. -/
def evalPy : PyExpr → Except Str Value × Out
  | .lit v => (.ok v, [])
  | .name s => (.error ("name '".toList ++ s ++ "' is not defined".toList), [])
  | .neg a =>
      match evalPy a with
      | (.error r, o) => (.error r, o)
      | (.ok v, o) => (pyNeg v, o)
  | .binop op a b =>
      match evalPy a with
      | (.error r, o) => (.error r, o)
      | (.ok va, oa) =>
          match evalPy b with
          | (.error r, ob) => (.error r, oa ++ ob)
          | (.ok vb, ob) => (pyBin op va vb, oa ++ ob)
  | .cmp op a b =>
      match evalPy a with
      | (.error r, o) => (.error r, o)
      | (.ok va, oa) =>
          match evalPy b with
          | (.error r, ob) => (.error r, oa ++ ob)
          | (.ok vb, ob) => (pyCmpv op va vb, oa ++ ob)
  | .index a b =>
      match evalPy a with
      | (.error r, o) => (.error r, o)
      | (.ok va, oa) =>
          match evalPy b with
          | (.error r, ob) => (.error r, oa ++ ob)
          | (.ok vb, ob) => (pyIndex va vb, oa ++ ob)
  | .call f a =>
      match evalPy a with
      | (.error r, o) => (.error r, o)
      | (.ok v, o) =>
          match f with
          | .printB => (.ok .none, o ++ [strOfValue v])
          | .lenB => (pyLen v, o)
          | .strB => (.ok (.str (strOfValue v)), o)
          | .intB => (pyIntB v, o)
          | .floatB => (pyFloatB v, o)

/-- The host `eval` call of `eval_expr`: parse, then evaluate.  A parse
failure is the host `SyntaxError`. -/
def pyRun (s : Str) : Except Str Value × Out :=
  match pyParse s with
  | Option.none => (.error "invalid syntax".toList, [])
  | some e => evalPy e

/-- The diagnostic line `eval_expr` prints to stderr on a failure
(src/smthing.py line 55): it interpolates the post-substitution expression
text and the exception. -/
def errMsgFor (e r : Str) : Str :=
  "Runtime Error: Could not evaluate expression '".toList ++ e ++
    "'. Reason: ".toList ++ r

/-- `eval_expr(expr, env)` (src/smthing.py lines 36-56): rewrite `$name`,
substitute scope variables longest-first, evaluate; on any evaluation
failure report to stderr and yield `None`.  Result: the value, the lines
written to stdout, and the lines written to stderr. -/
def eval_expr (expr : Str) (env : Env) : Value × Out × ErrOut :=
  let e2 := substFull env expr
  match pyRun e2 with
  | (.ok v, o) => (v, o, [])
  | (.error r, o) => (.none, o, [errMsgFor e2 r])

/-- Fatal errors of the interpreter: the exceptions the Python core raises
and never catches, plus fuel exhaustion of the embedding. -/
inductive RunError
  | synError (msg : Str)
  | nameError (msg : Str)
  | typeError (msg : Str)
  | attributeError
  | outOfFuel
deriving DecidableEq

/-- The `SyntaxError` message of `find_block_end` (src/smthing.py line 34). -/
def msgUnclosed : Str :=
  "Unmatched '\x7b' brace: Code block was never closed.".toList

/-- Scan loop of `find_block_end`: `idx` is the absolute index of the first
line of `rest`; `depth` is the running open-brace count. -/
def fbeAux : List Str → Nat → Int → Except RunError Nat
  | [], _, _ => .error (.synError msgUnclosed)
  | l :: rest, idx, depth =>
      let line := stripChars l
      let d1 := if '\x7b' ∈ line then depth + 1 else depth
      let d2 := if '\x7d' ∈ line then d1 - 1 else d1
      if d2 = 0 then .ok idx else fbeAux rest (idx + 1) d2

/-- `find_block_end(lines, start_index)` (src/smthing.py lines 17-34):
depth counter starting at 1, scanning from the next line, testing each line
for the presence of each brace character. -/
def find_block_end (lines : List Str) (start_index : Nat) : Except RunError Nat :=
  fbeAux (lines.drop (start_index + 1)) (start_index + 1) 1

/-- `re.search(r"\((.*?)\)", line).group(1)`: the text between the first
`(` and the first `)` after it; `Option.none` models the `AttributeError`
crash on a missing match. -/
def firstParenGroup (l : Str) : Option Str :=
  match l.dropWhile (· ≠ '(') with
  | '(' :: rest =>
      if ')' ∈ rest then some (rest.takeWhile (· ≠ ')')) else Option.none
  | _ => Option.none

/-- A stored function definition (src/smthing.py line 104). -/
structure FuncDef where
  params : List Str
  body : List Str
deriving DecidableEq

/-- The function registry: Python's insertion-ordered `functions` dict. -/
abbrev Fns := List (Str × FuncDef)

/-- Dict lookup in the registry. -/
def fnsGet : Fns → Str → Option FuncDef
  | [], _ => Option.none
  | (k, d) :: rest, name => if k = name then some d else fnsGet rest name

/-- Dict update in the registry (redefinition overwrites, last wins). -/
def fnsSet : Fns → Str → FuncDef → Fns
  | [], k, d => [(k, d)]
  | (k', d') :: rest, k, d =>
      if k' = k then (k, d) :: rest else (k', d') :: fnsSet rest k d

/-- `define_function(name, params, body)` (src/smthing.py lines 102-104). -/
def define_function (fns : Fns) (name : Str) (params : List Str)
    (body : List Str) : Fns :=
  fnsSet fns name ⟨params, body⟩

/-- The `NameError` message of `call_function` (src/smthing.py line 109). -/
def nameErrMsg (name : Str) : Str :=
  "Function '".toList ++ name ++ "' is not defined.".toList

/-- The `TypeError` message of `call_function` (src/smthing.py line 113). -/
def arityErrMsg (name : Str) (want got : Nat) : Str :=
  "Function '".toList ++ name ++ "' expected ".toList ++ natStr want ++
    " arguments, but got ".toList ++ natStr got ++ ".".toList

/-- The full-line test `re.match(r"^\w+\(.*\)$", line)` of the bare-call
branch (src/smthing.py line 91). -/
def isBareCallShape (l : Str) : Bool :=
  let w := l.takeWhile isWordChar
  !w.isEmpty &&
    (match l.drop w.length with
     | '(' :: rest => rest.getLast? == some ')'
     | _ => false)

/-- Evaluate a list of expression texts left to right (each stripped first,
as every call site does), collecting values, stdout and stderr. -/
def evalParts (parts : List Str) (env : Env) : List Value × Out × ErrOut :=
  match parts with
  | [] => ([], [], [])
  | p :: rest =>
      let r := eval_expr (stripChars p) env
      let rs := evalParts rest env
      (r.1 :: rs.1, r.2.1 ++ rs.2.1, r.2.2 ++ rs.2.2)

/-- `[l.strip() for l in lines[a:b]]`. -/
def sliceStrip (lines : List Str) (a b : Nat) : List Str :=
  ((lines.drop a).take (b - a)).map stripChars

/-- Python `str.endswith` for a one-character suffix check. -/
def trailsWith (suffix s : Str) : Bool :=
  leadsWith suffix.reverse s.reverse

mutual
/-- `execute(lines, env)` (src/smthing.py lines 124-181) with its cursor
`i` made explicit.  Returns the block's result value (the evaluated
`return(...)` expression, or `None` when the cursor runs off the end), the
scope after execution (the Python code mutates the shared dict in place),
and the stdout/stderr lines produced.  Fuel-indexed: each recursive step
consumes one unit. -/
def execute (fns : Fns) : Nat → List Str → Nat → Env →
    Except RunError (Value × Env × Out × ErrOut)
  | 0, _, _, _ => .error .outOfFuel
  | fuel+1, lines, i, env =>
      if i < lines.length then
        let line := stripChars (lines.getD i [])
        if line.isEmpty || leadsWith "//".toList line then
          execute fns fuel lines (i + 1) env
        else if leadsWith "return(".toList line then
          let r := eval_expr ((line.drop 7).dropLast) env
          .ok (r.1, env, r.2.1, r.2.2)
        else if leadsWith "ifthen".toList line then
          match firstParenGroup line with
          | Option.none => .error .attributeError
          | some condition =>
              match find_block_end lines i with
              | .error er => .error er
              | .ok ifEnd =>
                  let ifBlock := sliceStrip lines (i + 1) ifEnd
                  let elseInfo : Except RunError (List Str × Nat) :=
                    if ifEnd + 1 < lines.length &&
                        leadsWith "else".toList (stripChars (lines.getD (ifEnd + 1) [])) then
                      match find_block_end lines (ifEnd + 1) with
                      | .error er => .error er
                      | .ok elseEnd =>
                          .ok (sliceStrip lines (ifEnd + 2) elseEnd, elseEnd)
                    else .ok ([], ifEnd)
                  match elseInfo with
                  | .error er => .error er
                  | .ok (elseBlock, nexti) =>
                      let c := eval_expr condition env
                      match execute fns fuel
                          (if truthy c.1 then ifBlock else elseBlock) 0 env with
                      | .error er => .error er
                      | .ok (_, env', o2, e2) =>
                          match execute fns fuel lines (nexti + 1) env' with
                          | .error er => .error er
                          | .ok (v, env'', o3, e3) =>
                              .ok (v, env'', c.2.1 ++ o2 ++ o3, c.2.2 ++ e2 ++ e3)
        else if leadsWith "while".toList line then
          match firstParenGroup line with
          | Option.none => .error .attributeError
          | some condition =>
              match find_block_end lines i with
              | .error er => .error er
              | .ok blockEnd =>
                  let block := sliceStrip lines (i + 1) blockEnd
                  match whileLoop fns fuel condition block env with
                  | .error er => .error er
                  | .ok (env', o1, e1) =>
                      match execute fns fuel lines (blockEnd + 1) env' with
                      | .error er => .error er
                      | .ok (v, env'', o2, e2) =>
                          .ok (v, env'', o1 ++ o2, e1 ++ e2)
        else
          match parse_single_line fns fuel line env with
          | .error er => .error er
          | .ok (env', o1, e1) =>
              match execute fns fuel lines (i + 1) env' with
              | .error er => .error er
              | .ok (v, env'', o2, e2) => .ok (v, env'', o1 ++ o2, e1 ++ e2)
      else .ok (.none, env, [], [])

/-- The loop `while eval_expr(condition, env): execute(block, env)`
(src/smthing.py lines 172-173).  The recursive `execute` of the body is an
expression statement in the source: its result value is discarded and only
its effect on the shared scope is kept. -/
def whileLoop (fns : Fns) : Nat → Str → List Str → Env →
    Except RunError (Env × Out × ErrOut)
  | 0, _, _, _ => .error .outOfFuel
  | fuel+1, condition, block, env =>
      let c := eval_expr condition env
      if truthy c.1 then
        match execute fns fuel block 0 env with
        | .error er => .error er
        | .ok (_discarded, env', o2, e2) =>
            match whileLoop fns fuel condition block env' with
            | .error er => .error er
            | .ok (env'', o3, e3) =>
                .ok (env'', c.2.1 ++ o2 ++ o3, c.2.2 ++ e2 ++ e3)
      else .ok (env, c.2.1, c.2.2)

/-- `parse_single_line(line, env)` (src/smthing.py lines 58-100): print,
assignment (scalar or brace list), bare function call, or silent no-op. -/
def parse_single_line (fns : Fns) : Nat → Str → Env →
    Except RunError (Env × Out × ErrOut)
  | 0, _, _ => .error .outOfFuel
  | fuel+1, line0, env =>
      let line := stripChars line0
      if leadsWith "print(".toList line then
        let content := (line.drop 6).dropLast
        if content.isEmpty then .ok (env, [[]], [])
        else
          let r := evalParts (splitChar ',' content) env
          .ok (env, r.2.1 ++ [joinSpace (r.1.map strOfValue)], r.2.2)
      else if ('=' ∈ line) ∧ leadsWith "fn".toList line = false then
        let p := splitFirst '=' line
        let var := stripChars p.1
        let val := stripChars p.2
        if leadsWith "\x7b".toList val && trailsWith "\x7d".toList val then
          let items := splitChar ',' ((val.drop 1).dropLast)
          let kept := items.filter (fun v => !(stripChars v).isEmpty)
          let r := evalParts kept env
          .ok (envSet env var (.list (ofList r.1)), r.2.1, r.2.2)
        else
          let r := eval_expr val env
          .ok (envSet env var r.1, r.2.1, r.2.2)
      else if isBareCallShape line then
        let name := line.takeWhile isWordChar
        let argsStr := (line.drop (name.length + 1)).takeWhile (· ≠ ')')
        let r := if argsStr.isEmpty then (([], [], []) : List Value × Out × ErrOut)
                 else evalParts (splitChar ',' argsStr) env
        match call_function fns fuel name r.1 env with
        | .error er => .error er
        | .ok (_, o2, e2) => .ok (env, r.2.1 ++ o2, r.2.2 ++ e2)
      else .ok (env, [], [])

/-- `call_function(name, args, outer_env)` (src/smthing.py lines 106-122):
fatal `NameError` for an unregistered name, fatal `TypeError` on an
argument-count mismatch; otherwise the body runs against a copy of the
caller's scope with the parameters bound on top, and the body's result is
the call's result. -/
def call_function (fns : Fns) : Nat → Str → List Value → Env →
    Except RunError (Value × Out × ErrOut)
  | 0, _, _, _ => .error .outOfFuel
  | fuel+1, name, args, outer_env =>
      match fnsGet fns name with
      | Option.none => .error (.nameError (nameErrMsg name))
      | some func_def =>
          if args.length ≠ func_def.params.length then
            .error (.typeError (arityErrMsg name func_def.params.length args.length))
          else
            let local_env := (func_def.params.zip args).foldl
                (fun e pa => envSet e pa.1 pa.2) outer_env
            match execute fns fuel func_def.body 0 local_env with
            | .error er => .error er
            | .ok (v, _, o, e) => .ok (v, o, e)
end

/-- The hoisting pass of `run_flux` (src/smthing.py lines 194-210): extract
every top-level `fn` definition into the registry and collect the remaining
lines for execution. -/
def hoist : Nat → List Str → Nat → Fns → List Str →
    Except RunError (Fns × List Str)
  | 0, _, _, _, _ => .error .outOfFuel
  | fuel+1, lines, i, fns, clean =>
      if i < lines.length then
        let line := stripChars (lines.getD i [])
        if leadsWith "fn".toList line then
          let name := (line.drop 3).takeWhile isWordChar
          if leadsWith "fn ".toList line ∧ name ≠ [] then
            match firstParenGroup line with
            | Option.none => .error .attributeError
            | some params_str =>
                let params := ((splitChar ',' params_str).filter
                    (fun p => !p.isEmpty)).map stripChars
                match find_block_end lines i with
                | .error er => .error er
                | .ok blockEnd =>
                    hoist fuel lines (blockEnd + 1)
                      (define_function fns name params
                        (sliceStrip lines (i + 1) blockEnd)) clean
          else .error .attributeError
        else hoist fuel lines (i + 1) fns (clean ++ [lines.getD i []])
      else .ok (fns, clean)

/-- The process-wide mutable interpreter state: the `functions` and
`global_env` module globals (src/smthing.py lines 7-8). -/
structure ProcState where
  functions : Fns
  global_env : Env

/-- `run_flux(code)` (src/smthing.py lines 183-213).  The incoming process
state models the globals left over from any previous run; the function
resets both to empty before touching the program text, then hoists function
definitions and executes the remaining lines against the fresh global
scope. -/
def run_flux (prior : ProcState) (fuel : Nat) (code : Str) :
    Except RunError (ProcState × Out × ErrOut) :=
  let _ := prior
  let state := ProcState.mk [] []
  let lines := splitChar '\n' (stripChars code)
  match hoist fuel lines 0 state.functions [] with
  | .error er => .error er
  | .ok (fns, clean_lines) =>
      match execute fns fuel clean_lines 0 state.global_env with
      | .error er => .error er
      | .ok (_, env', o, e) => .ok (ProcState.mk fns env', o, e)

/-- Body of a test function in which a `while` loop's body (through a
nested `ifthen`) executes `return(42)`, after which the body's own
top level executes `return(7)`. -/
def gapBody : List Str :=
  ["j = 0".toList,
   "while (j < 2) \x7b".toList,
   "ifthen (j == 1) \x7b".toList,
   "return(42)".toList,
   "\x7d".toList,
   "j = j + 1".toList,
   "\x7d".toList,
   "return(7)".toList]

/-- A registry holding `f(n)` with body `gapBody`. -/
def gapFns : Fns := [("f".toList, ⟨["n".toList], gapBody⟩)]

/-- A registry holding `idf(a)` = `return(a)`: its parameter `a` shadows a
caller variable of the same name. -/
def shadowFns : Fns :=
  [("idf".toList, ⟨["a".toList], ["return(a)".toList]⟩)]

/-- A registry holding `setter(x)` whose body assigns `a = 99`. -/
def setFns : Fns :=
  [("setter".toList, ⟨["x".toList], ["a = 99".toList]⟩)]

/-- A registry holding a one-parameter function `g`. -/
def arityFns : Fns :=
  [("g".toList, ⟨["x".toList], ["return(x)".toList]⟩)]

/-- Does an expression of the fragment contain no call of the exposed
`print` builtin? -/
def printFree : PyExpr → Bool
  | .lit _ => true
  | .name _ => true
  | .neg a => printFree a
  | .binop _ a b => printFree a && printFree b
  | .cmp _ a b => printFree a && printFree b
  | .index a b => printFree a && printFree b
  | .call .printB _ => false
  | .call _ a => printFree a

/-- Lift a Boolean predicate over an optional value (`true` on absence). -/
def optAll {α : Type} (p : α → Bool) : Option α → Bool
  | Option.none => true
  | some a => p a

/-- Does `p` occur as a contiguous substring of the second argument? -/
def hasInfix (p : Str) : Str → Bool
  | [] => leadsWith p []
  | c :: rest => leadsWith p (c :: rest) || hasInfix p rest

/-- The per-line depth contribution the block matcher assigns: at most one
increment for the presence of `\x7b` and at most one decrement for the
presence of `\x7d`, regardless of how many brace characters the line
holds. -/
def deltaLine (l : Str) : Int :=
  (if '\x7b' ∈ l then 1 else 0) - (if '\x7d' ∈ l then 1 else 0)

/-- The open-brace depth after the block matcher has processed lines
`start+1 .. j` of `lines`, starting from depth 1 at the opening line. -/
def depthAfter (lines : List Str) (start j : Nat) : Int :=
  1 + (((lines.drop (start + 1)).take (j - start)).map deltaLine).sum

/-- Claim C1: a `return(<expr>)` inside a `while` loop's body (here nested
in an `ifthen`) yields its value only as the result of the recursive
execution of that innermost block — executing the inner block alone does
produce 42 — but the while-loop driver discards the block's result and
keeps iterating, so the enclosing call of `f` returns 7, the value of the
top-level `return` reached later, not the early-returned 42. -/
theorem C1_return_in_while_confined :
    call_function gapFns 100 "f".toList [.int 0] [] = .ok (.int 7, [], []) ∧
    execute gapFns 100 ["return(42)".toList] 0
        [("n".toList, .int 0), ("j".toList, .int 1)]
      = .ok (.int 42, [("n".toList, .int 0), ("j".toList, .int 1)], [], []) ∧
    (Value.int 7 : Value) ≠ .int 42 :=
  ⟨rfl, rfl, fun h => by have h7 := Value.int.inj h; omega⟩

/-- Claim C9: `run_flux` begins by resetting the function registry and the
global scope to empty, so its behaviour is independent of whatever process
state an earlier run left behind: any two prior states give identical
results on every program. -/
theorem C9_run_flux_resets_state :
    ∀ (s1 s2 : ProcState) (fuel : Nat) (code : Str),
      run_flux s1 fuel code = run_flux s2 fuel code :=
  fun _ _ _ _ => rfl

/-- Claim C10: whole-word substitution is applied to the entire expression
text, including inside quoted string literals: with `a` bound to 1 the
literal `"a likes b"` evaluates to the string `1 likes b`, which differs
from the literal as written. -/
theorem C10_substitution_inside_string_literals :
    eval_expr "\"a likes b\"".toList [("a".toList, .int 1)]
      = (.str "1 likes b".toList, [], []) ∧
    "1 likes b".toList ≠ "a likes b".toList :=
  ⟨rfl, by decide⟩

/-- Counterexample to claim C2: the host evaluator exposes the `print`
builtin, so evaluating the expression `print(1)` in the empty scope writes
the line `1` to standard output — evaluation is not free of output
effects. -/
theorem C2_counterexample_print_writes_stdout :
    eval_expr "print(1)".toList [] = (.none, ["1".toList], []) ∧
    (["1".toList] : Out) ≠ [] :=
  ⟨rfl, by decide⟩

/-- Counterexample to claim C5: evaluating `a +` with `a` bound to 1 fails;
the diagnostic interpolates only the post-substitution text `1 +`, and the
original expression text `a +` occurs nowhere in the reported line. -/
theorem C5_counterexample_original_text_missing :
    eval_expr "a +".toList [("a".toList, .int 1)]
      = (.none, [], [errMsgFor "1 +".toList "invalid syntax".toList]) ∧
    hasInfix "a +".toList
        (errMsgFor "1 +".toList "invalid syntax".toList) = false :=
  ⟨rfl, by decide⟩

/-- Counterexample to claim C7: the argument text of a `print` statement is
split on every comma, including one nested inside brackets.  For
`print(len([1, 2]))` the two fragments `len([1` and ` 2])` each fail to
evaluate, so the statement prints `None None` — not the `2` that a
top-level-only split would produce. -/
theorem C7_counterexample_split_every_comma :
    parse_single_line [] 100 "print(len([1, 2]))".toList []
      = .ok ([], ["None None".toList],
          [errMsgFor "len([1".toList "invalid syntax".toList,
           errMsgFor "2])".toList "invalid syntax".toList]) ∧
    ["None None".toList] ≠ (["2".toList] : Out) :=
  ⟨rfl, by decide⟩

/-- Claim C6: a call to an unregistered name raises a fatal `NameError`,
and a call with the wrong number of arguments raises a fatal `TypeError`
(both shown in general, for any registry, scope and fuel); the two concrete
executions and the whole-program run show the error propagating uncaught
out of the recursive executor, aborting the run at the point of the call
(the following `print` line never executes). -/
theorem C6_fatal_call_errors :
    (∀ (fns : Fns) (fuel : Nat) (name : Str) (args : List Value) (env : Env),
        fnsGet fns name = Option.none →
        call_function fns (fuel + 1) name args env
          = .error (.nameError (nameErrMsg name))) ∧
    (∀ (fns : Fns) (fuel : Nat) (name : Str) (args : List Value) (env : Env)
        (d : FuncDef),
        fnsGet fns name = some d → args.length ≠ d.params.length →
        call_function fns (fuel + 1) name args env
          = .error (.typeError (arityErrMsg name d.params.length args.length))) ∧
    execute [] 100 ["f(1)".toList, "print(2)".toList] 0 []
      = .error (.nameError (nameErrMsg "f".toList)) ∧
    execute arityFns 100 ["g(1, 2)".toList] 0 []
      = .error (.typeError (arityErrMsg "g".toList 1 2)) ∧
    run_flux ⟨[], []⟩ 100 "f(1)".toList
      = .error (.nameError (nameErrMsg "f".toList)) := by
  refine ⟨?_, ?_, rfl, rfl, rfl⟩
  · intro fns fuel name args env h
    simp [call_function, h]
  · intro fns fuel name args env d h hne
    simp [call_function, h, hne]

/-- Witness for C6: the empty registry does not know `f`, and `g` (one
parameter) called with two arguments; both hypotheses hold and the general
parts of the theorem apply. -/
theorem C6_witness :
    fnsGet [] "f".toList = Option.none ∧
    call_function [] 1 "f".toList [] []
      = .error (.nameError (nameErrMsg "f".toList)) ∧
    fnsGet arityFns "g".toList = some ⟨["x".toList], ["return(x)".toList]⟩ ∧
    call_function arityFns 1 "g".toList [.int 1, .int 2] []
      = .error (.typeError (arityErrMsg "g".toList 1 2)) :=
  ⟨rfl, C6_fatal_call_errors.1 [] 0 "f".toList [] [] rfl, rfl,
   C6_fatal_call_errors.2.1 arityFns 0 "g".toList [.int 1, .int 2] []
     ⟨["x".toList], ["return(x)".toList]⟩ rfl (by decide)⟩

/-- Claim C5 (amended): whenever the host evaluation of the substituted
expression fails, `eval_expr` writes one diagnostic line — interpolating
the post-substitution expression text and the underlying cause — to the
diagnostic stream and yields the absence value; the concrete execution
shows the surrounding program continuing past the failing statement. -/
theorem C5_eval_failure_reported_and_recovered :
    (∀ (expr : Str) (env : Env) (r : Str) (o : Out),
        pyRun (substFull env expr) = (.error r, o) →
        eval_expr expr env = (.none, o, [errMsgFor (substFull env expr) r])) ∧
    execute [] 100 ["x = nonsense +".toList, "y = 2".toList] 0 []
      = .ok (.none, [("x".toList, .none), ("y".toList, .int 2)], [],
          [errMsgFor "nonsense +".toList "invalid syntax".toList]) := by
  refine ⟨?_, rfl⟩
  intro expr env r o h
  simp [eval_expr, h]

/-- Witness for C5: the expression `1 +` fails to parse, and `eval_expr`
reports it and yields the absence value. -/
theorem C5_witness :
    pyRun (substFull [] "1 +".toList) = (.error "invalid syntax".toList, []) ∧
    eval_expr "1 +".toList []
      = (.none, [], [errMsgFor (substFull [] "1 +".toList)
          "invalid syntax".toList]) :=
  ⟨rfl, C5_eval_failure_reported_and_recovered.1 "1 +".toList []
    "invalid syntax".toList [] rfl⟩

/-- The only source of standard output inside the host evaluator is the
`print` builtin: a print-free expression evaluates silently. -/
theorem evalPy_out_nil_of_printFree :
    ∀ (e : PyExpr), printFree e = true → (evalPy e).2 = [] := by
  intro e
  induction e with
  | lit v => intro _; rfl
  | name s => intro _; rfl
  | neg a ih =>
      intro h
      have ha : (evalPy a).2 = [] := ih (by simpa [printFree] using h)
      rcases hE : evalPy a with ⟨ra, oa⟩
      rw [hE] at ha; simp only at ha
      simp only [evalPy, hE]
      cases ra <;> simp [ha]
  | binop op a b iha ihb =>
      intro h
      simp only [printFree, Bool.and_eq_true] at h
      have ha : (evalPy a).2 = [] := iha h.1
      have hb : (evalPy b).2 = [] := ihb h.2
      rcases hEa : evalPy a with ⟨ra, oa⟩
      rcases hEb : evalPy b with ⟨rb, ob⟩
      rw [hEa] at ha; rw [hEb] at hb; simp only at ha hb
      simp only [evalPy, hEa, hEb]
      cases ra <;> cases rb <;> simp [ha, hb]
  | cmp op a b iha ihb =>
      intro h
      simp only [printFree, Bool.and_eq_true] at h
      have ha : (evalPy a).2 = [] := iha h.1
      have hb : (evalPy b).2 = [] := ihb h.2
      rcases hEa : evalPy a with ⟨ra, oa⟩
      rcases hEb : evalPy b with ⟨rb, ob⟩
      rw [hEa] at ha; rw [hEb] at hb; simp only at ha hb
      simp only [evalPy, hEa, hEb]
      cases ra <;> cases rb <;> simp [ha, hb]
  | index a b iha ihb =>
      intro h
      simp only [printFree, Bool.and_eq_true] at h
      have ha : (evalPy a).2 = [] := iha h.1
      have hb : (evalPy b).2 = [] := ihb h.2
      rcases hEa : evalPy a with ⟨ra, oa⟩
      rcases hEb : evalPy b with ⟨rb, ob⟩
      rw [hEa] at ha; rw [hEb] at hb; simp only at ha hb
      simp only [evalPy, hEa, hEb]
      cases ra <;> cases rb <;> simp [ha, hb]
  | call f a ih =>
      intro h
      cases f with
      | printB => simp [printFree] at h
      | lenB =>
          have ha : (evalPy a).2 = [] := ih (by simpa [printFree] using h)
          rcases hE : evalPy a with ⟨ra, oa⟩
          rw [hE] at ha; simp only at ha
          simp only [evalPy, hE]
          cases ra <;> simp [ha]
      | strB =>
          have ha : (evalPy a).2 = [] := ih (by simpa [printFree] using h)
          rcases hE : evalPy a with ⟨ra, oa⟩
          rw [hE] at ha; simp only at ha
          simp only [evalPy, hE]
          cases ra <;> simp [ha]
      | intB =>
          have ha : (evalPy a).2 = [] := ih (by simpa [printFree] using h)
          rcases hE : evalPy a with ⟨ra, oa⟩
          rw [hE] at ha; simp only at ha
          simp only [evalPy, hE]
          cases ra <;> simp [ha]
      | floatB =>
          have ha : (evalPy a).2 = [] := ih (by simpa [printFree] using h)
          rcases hE : evalPy a with ⟨ra, oa⟩
          rw [hE] at ha; simp only at ha
          simp only [evalPy, hE]
          cases ra <;> simp [ha]

/-- Claim C2 (amended): evaluation never touches the scope (the embedding
passes it by value and returns none), and writes nothing to standard
output as long as the substituted expression does not invoke the exposed
`print` builtin; expressions that do call `print` are the exception the
counterexample exhibits. -/
theorem C2_eval_no_output_unless_print :
    ∀ (expr : Str) (env : Env),
      optAll printFree (pyParse (substFull env expr)) = true →
      (eval_expr expr env).2.1 = [] := by
  intro expr env h
  simp only [eval_expr, pyRun]
  cases hp : pyParse (substFull env expr) with
  | none => simp
  | some e =>
      rw [hp] at h
      have hout : (evalPy e).2 = [] :=
        evalPy_out_nil_of_printFree e (by simpa [optAll] using h)
      rcases hE : evalPy e with ⟨re, oe⟩
      rw [hE] at hout; simp only at hout
      cases re <;> simp [hE, hout]

/-- Witness for C2: the print-free expression `1+2` produces no standard
output. -/
theorem C2_witness :
    optAll printFree (pyParse (substFull [] "1+2".toList)) = true ∧
    (eval_expr "1+2".toList []).2.1 = [] :=
  ⟨rfl, C2_eval_no_output_unless_print "1+2".toList [] rfl⟩

/-- Claim C3: a bare-call statement leaves the caller's scope exactly as it
was (in general, for any registry, fuel, scope and line that reaches the
call branch — assignments inside the callee act on the callee's copied
scope only); concretely, `idf(a){return(a)}` called with argument 10 while
the caller binds `a = 1` returns 10 (the parameter shadows the copied
binding), and calling `setter(x){a = 99}` leaves the caller's `a = 1`
untouched. -/
theorem C3_call_copy_semantics :
    (∀ (fns : Fns) (fuel : Nat) (line : Str) (env : Env)
        (r : Env × Out × ErrOut),
        leadsWith "print(".toList (stripChars line) = false →
        '=' ∉ stripChars line →
        parse_single_line fns fuel line env = .ok r → r.1 = env) ∧
    call_function shadowFns 100 "idf".toList [.int 10] [("a".toList, .int 1)]
      = .ok (.int 10, [], []) ∧
    parse_single_line setFns 100 "setter(0)".toList [("a".toList, .int 1)]
      = .ok ([("a".toList, .int 1)], [], []) := by
  refine ⟨?_, rfl, rfl⟩
  intro fns fuel line env r h1 h2 h3
  match fuel with
  | 0 => simp [parse_single_line] at h3
  | fuel+1 =>
      simp only [parse_single_line, h1, h2] at h3
      simp only [Bool.false_eq_true, if_false, false_and, if_true] at h3
      split at h3
      · split at h3
        · exact absurd h3 (by simp)
        · rename_i v o2 e2 heq
          exact congrArg Prod.fst (Except.ok.inj h3).symm
      · exact congrArg Prod.fst (Except.ok.inj h3).symm

/-- Witness for C3: the line `setter(0)` reaches the bare-call branch (it
is not a print line and contains no `=`), and the caller's scope after the
call is exactly the scope before it. -/
theorem C3_witness :
    leadsWith "print(".toList (stripChars "setter(0)".toList) = false ∧
    '=' ∉ stripChars "setter(0)".toList ∧
    (([("a".toList, Value.int 1)], [], []) : Env × Out × ErrOut).1
      = [("a".toList, Value.int 1)] :=
  ⟨rfl, by decide,
   C3_call_copy_semantics.1 setFns 100 "setter(0)".toList
     [("a".toList, .int 1)] ([("a".toList, .int 1)], [], []) rfl (by decide) rfl⟩

/-- Membership after stable insertion: an element of `insLen x l` is `x` or
an element of `l`. -/
theorem mem_insLen {x y : Str} : ∀ {l : List Str}, y ∈ insLen x l → y = x ∨ y ∈ l := by
  intro l
  induction l with
  | nil => intro h; simp [insLen] at h; exact Or.inl h
  | cons z zs ih =>
      intro h
      simp only [insLen] at h
      split at h
      · rcases List.mem_cons.mp h with h' | h'
        · exact Or.inr (by simp [h'])
        · rcases ih h' with h'' | h''
          · exact Or.inl h''
          · exact Or.inr (List.mem_cons_of_mem _ h'')
      · rcases List.mem_cons.mp h with h' | h'
        · exact Or.inl h'
        · exact Or.inr h'

/-- Stable insertion preserves the longest-first ordering. -/
theorem sorted_insLen {x : Str} : ∀ {l : List Str},
    l.Sorted (fun a b => b.length ≤ a.length) →
    (insLen x l).Sorted (fun a b => b.length ≤ a.length) := by
  intro l
  induction l with
  | nil => intro _; simp [insLen]
  | cons z zs ih =>
      intro h
      rw [List.sorted_cons] at h
      obtain ⟨hz, hzs⟩ := h
      simp only [insLen]
      split
      · rename_i hle
        rw [List.sorted_cons]
        refine ⟨?_, ih hzs⟩
        intro b hb
        rcases mem_insLen hb with rfl | hb'
        · exact hle
        · exact hz b hb'
      · rename_i hgt
        rw [List.sorted_cons]
        refine ⟨?_, by rw [List.sorted_cons]; exact ⟨hz, hzs⟩⟩
        intro b hb
        rcases List.mem_cons.mp hb with rfl | hb'
        · omega
        · have := hz b hb'; omega

/-- The substitution order of `eval_expr` is sorted by name length, longest
first. -/
theorem sorted_sortByLenDesc (names : List Str) :
    (sortByLenDesc names).Sorted (fun a b => b.length ≤ a.length) := by
  have key : ∀ (l acc : List Str),
      acc.Sorted (fun a b => b.length ≤ a.length) →
      (l.foldl (fun acc x => insLen x acc) acc).Sorted
        (fun a b => b.length ≤ a.length) := by
    intro l
    induction l with
    | nil => intro acc h; simpa using h
    | cons x xs ih => intro acc h; exact ih _ (sorted_insLen h)
  simpa [sortByLenDesc] using key names [] (by simp)

/-- Claim C8: variable substitution is substring-safe.  Names are
substituted longest-first (`sortByLenDesc` always yields a longest-first
ordering of the scope's keys), each as a whole-word token, so `a+ab` with
`a=1, ab=10` evaluates to 11 rather than being corrupted by the partial
match of `a` inside `ab`, and the length-prefix operator gives
`$xs` = 3 for `xs = [1,2,3]`. -/
theorem C8_substitution_substring_safe :
    eval_expr "a+ab".toList [("a".toList, .int 1), ("ab".toList, .int 10)]
      = (.int 11, [], []) ∧
    eval_expr "$xs".toList
        [("xs".toList, .list (ofList [.int 1, .int 2, .int 3]))]
      = (.int 3, [], []) ∧
    ∀ names : List Str,
      (sortByLenDesc names).Sorted (fun a b => b.length ≤ a.length) :=
  ⟨rfl, rfl, sorted_sortByLenDesc⟩

/-- Dropping a satisfied prefix cannot drop an element on which the
predicate fails. -/
theorem mem_dropWhile_of_mem {p : Char → Bool} {c : Char} :
    ∀ {l : Str}, c ∈ l → p c = false → c ∈ l.dropWhile p := by
  intro l
  induction l with
  | nil => intro h _; cases h
  | cons a as ih =>
      intro h hc
      rw [List.dropWhile_cons]
      split
      · rename_i hpa
        rcases List.mem_cons.mp h with rfl | h'
        · rw [hc] at hpa; cases hpa
        · exact ih h' hc
      · exact h

/-- `dropWhile` only removes elements. -/
theorem mem_of_mem_dropWhile {p : Char → Bool} {c : Char} :
    ∀ {l : Str}, c ∈ l.dropWhile p → c ∈ l := by
  intro l
  induction l with
  | nil => intro h; exact h
  | cons a as ih =>
      intro h
      rw [List.dropWhile_cons] at h
      split at h
      · exact List.mem_cons_of_mem _ (ih h)
      · exact h

/-- Stripping only removes whitespace, so membership of a non-whitespace
character is unchanged. -/
theorem mem_stripChars {c : Char} (hc : isSpaceChar c = false) (l : Str) :
    c ∈ stripChars l ↔ c ∈ l := by
  unfold stripChars
  constructor
  · intro h
    exact mem_of_mem_dropWhile
      (List.mem_reverse.mp (mem_of_mem_dropWhile (List.mem_reverse.mp h)))
  · intro h
    exact List.mem_reverse.mpr
      (mem_dropWhile_of_mem (List.mem_reverse.mpr (mem_dropWhile_of_mem h hc)) hc)

/-- One scan step of the block matcher changes the depth by exactly
`deltaLine`. -/
theorem fbe_step (depth : Int) (l : Str) :
    (if '\x7d' ∈ stripChars l then
        (if '\x7b' ∈ stripChars l then depth + 1 else depth) - 1
     else (if '\x7b' ∈ stripChars l then depth + 1 else depth))
      = depth + deltaLine l := by
  have e1 : ('\x7b' ∈ stripChars l) = ('\x7b' ∈ l) :=
    propext (mem_stripChars (by decide) l)
  have e2 : ('\x7d' ∈ stripChars l) = ('\x7d' ∈ l) :=
    propext (mem_stripChars (by decide) l)
  rw [deltaLine]
  simp only [e1, e2]
  by_cases h1 : '\x7b' ∈ l <;> by_cases h2 : '\x7d' ∈ l <;>
    (simp [h1, h2]; try omega)

/-- Success of the scan loop: it returns the absolute index of the first
processed line at which the running depth reaches zero. -/
theorem fbeAux_ok :
    ∀ (rest : List Str) (idx : Nat) (depth : Int) (i : Nat),
      fbeAux rest idx depth = .ok i →
      idx ≤ i ∧ i < idx + rest.length ∧
      depth + ((rest.take (i - idx + 1)).map deltaLine).sum = 0 ∧
      ∀ m : Nat, idx + m < i →
        depth + ((rest.take (m + 1)).map deltaLine).sum ≠ 0 := by
  intro rest
  induction rest with
  | nil => intro idx depth i h; simp [fbeAux] at h
  | cons l rest ih =>
      intro idx depth i h
      simp only [fbeAux] at h
      rw [fbe_step] at h
      split at h
      · rename_i hz
        have hi : i = idx := by
          have := Except.ok.inj h; omega
        subst hi
        refine ⟨le_refl _, by simp only [List.length_cons]; omega, ?_, ?_⟩
        · simp only [Nat.sub_self, Nat.zero_add, List.take_succ_cons,
            List.take_zero, List.map_cons, List.map_nil, List.sum_cons,
            List.sum_nil]
          omega
        · intro m hm; omega
      · rename_i hnz
        obtain ⟨h1, h2, h3, h4⟩ := ih (idx + 1) (depth + deltaLine l) i h
        refine ⟨by omega, by simp only [List.length_cons]; omega, ?_, ?_⟩
        · have hco : i - idx + 1 = (i - (idx + 1) + 1) + 1 := by omega
          rw [hco, List.take_succ_cons, List.map_cons, List.sum_cons]
          omega
        · intro m hm
          match m with
          | 0 =>
              simp only [Nat.zero_add, List.take_succ_cons, List.take_zero,
                List.map_cons, List.map_nil, List.sum_cons, List.sum_nil]
              omega
          | m'+1 =>
              have := h4 m' (by omega)
              rw [List.take_succ_cons, List.map_cons, List.sum_cons]
              omega

/-- Failure of the scan loop: end of input was reached, the error is the
unmatched-brace `SyntaxError`, and the running depth never reached zero. -/
theorem fbeAux_err :
    ∀ (rest : List Str) (idx : Nat) (depth : Int) (e : RunError),
      fbeAux rest idx depth = .error e →
      e = .synError msgUnclosed ∧
      ∀ m : Nat, m < rest.length →
        depth + ((rest.take (m + 1)).map deltaLine).sum ≠ 0 := by
  intro rest
  induction rest with
  | nil =>
      intro idx depth e h
      refine ⟨(Except.error.inj h).symm, ?_⟩
      intro m hm; simp at hm
  | cons l rest ih =>
      intro idx depth e h
      simp only [fbeAux] at h
      rw [fbe_step] at h
      split at h
      · exact absurd h (by simp)
      · rename_i hnz
        obtain ⟨he, hall⟩ := ih (idx + 1) (depth + deltaLine l) e h
        refine ⟨he, ?_⟩
        intro m hm
        match m with
        | 0 =>
            simp only [Nat.zero_add, List.take_succ_cons, List.take_zero,
              List.map_cons, List.map_nil, List.sum_cons, List.sum_nil]
            omega
        | m'+1 =>
            have := hall m' (by simp only [List.length_cons] at hm; omega)
            rw [List.take_succ_cons, List.map_cons, List.sum_cons]
            omega

/-- Claim C4: for any line list and start index whose line contains the
opening brace, the block matcher scans forward with a depth counter
starting at 1, changing it by at most one per line for the presence of
each brace character (`depthAfter` is defined from exactly that per-line
rule), and a successful result is the first following line at which the
depth reaches 0; if the end of input is reached instead, it fails with the
`SyntaxError`-class error naming the unmatched `{`. -/
theorem C4_block_matcher_spec :
    ∀ (lines : List Str) (start : Nat),
      '\x7b' ∈ lines.getD start [] →
      (∀ i, find_block_end lines start = .ok i →
          start < i ∧ i < lines.length ∧ depthAfter lines start i = 0 ∧
          ∀ j, start < j → j < i → depthAfter lines start j ≠ 0) ∧
      (∀ e, find_block_end lines start = .error e →
          e = .synError msgUnclosed ∧
          ∀ j, start < j → j < lines.length → depthAfter lines start j ≠ 0) := by
  intro lines start _
  have hlen : (lines.drop (start + 1)).length = lines.length - (start + 1) :=
    List.length_drop _ _
  constructor
  · intro i h
    obtain ⟨h1, h2, h3, h4⟩ := fbeAux_ok _ _ _ _ h
    rw [hlen] at h2
    refine ⟨by omega, by omega, ?_, ?_⟩
    · unfold depthAfter
      have hco : i - start = i - (start + 1) + 1 := by omega
      rw [hco]
      exact h3
    · intro j hj1 hj2
      have := h4 (j - (start + 1)) (by omega)
      unfold depthAfter
      have hco : j - start = (j - (start + 1)) + 1 := by omega
      rw [hco]
      exact this
  · intro e h
    obtain ⟨he, hall⟩ := fbeAux_err _ _ _ _ h
    refine ⟨he, ?_⟩
    intro j hj1 hj2
    have := hall (j - (start + 1)) (by omega)
    unfold depthAfter
    have hco : j - start = (j - (start + 1)) + 1 := by omega
    rw [hco]
    exact this

/-- Witness for C4: a two-line block whose opener is at index 0; the
matcher succeeds at index 1 and the depth there is 0. -/
theorem C4_witness :
    '\x7b' ∈ ["while (x) \x7b".toList, "\x7d".toList].getD 0 [] ∧
    depthAfter ["while (x) \x7b".toList, "\x7d".toList] 0 1 = 0 :=
  ⟨by decide,
   ((C4_block_matcher_spec ["while (x) \x7b".toList, "\x7d".toList] 0
       (by decide)).1 1 rfl).2.2.1⟩

/-- A string starts with itself followed by anything. -/
theorem leadsWith_append (p s : Str) : leadsWith p (p ++ s) = true := by
  induction p with
  | nil => rfl
  | cons a as ih => simp [leadsWith, ih]

/-- Claim C7 (amended): for every `print(<content>)` statement line the
argument text is split on **every** comma (`splitChar ','` — nesting inside
brackets or braces does not protect a comma), each fragment is stripped and
evaluated, and one line holding the space-separated string forms is written
after any output the evaluations themselves produced; `print()` with no
arguments writes a bare newline.  The concrete conjunct shows
`print(1, 2)` printing `1 2`. -/
theorem C7_print_split_semantics :
    (∀ (fns : Fns) (fuel : Nat) (env : Env) (content l : Str),
        stripChars l = "print(".toList ++ content ++ [')'] →
        content ≠ [] →
        parse_single_line fns (fuel + 1) l env
          = .ok (env,
              (evalParts (splitChar ',' content) env).2.1
                ++ [joinSpace
                    ((evalParts (splitChar ',' content) env).1.map strOfValue)],
              (evalParts (splitChar ',' content) env).2.2)) ∧
    (∀ (fns : Fns) (fuel : Nat) (env : Env),
        parse_single_line fns (fuel + 1) "print()".toList env
          = .ok (env, [[]], [])) ∧
    parse_single_line [] 100 "print(1, 2)".toList []
      = .ok ([], ["1 2".toList], []) := by
  refine ⟨?_, ?_, rfl⟩
  · intro fns fuel env content l h1 h2
    have hlw : leadsWith "print(".toList (stripChars l) = true := by
      rw [h1]; exact leadsWith_append _ _
    have hdl : ((stripChars l).drop 6).dropLast = content := by
      rw [h1, List.append_assoc,
        show (6 : Nat) = ("print(".toList : Str).length from rfl, List.drop_left]
      simp
    simp only [parse_single_line, hlw, hdl, if_true]
    simp [h2]
  · intro fns fuel env
    rfl

/-- Witness for C7: `print(1, 2)` satisfies the line-shape hypothesis and
the nonemptiness hypothesis, and the theorem computes its effect. -/
theorem C7_witness :
    stripChars "print(1, 2)".toList
      = "print(".toList ++ "1, 2".toList ++ [')'] ∧
    "1, 2".toList ≠ [] ∧
    parse_single_line [] 100 "print(1, 2)".toList []
      = .ok ([], (evalParts (splitChar ',' "1, 2".toList) []).2.1
          ++ [joinSpace
              ((evalParts (splitChar ',' "1, 2".toList) []).1.map strOfValue)],
          (evalParts (splitChar ',' "1, 2".toList) []).2.2) :=
  ⟨rfl, by decide,
   C7_print_split_semantics.1 [] 99 [] "1, 2".toList "print(1, 2)".toList
     rfl (by decide)⟩
